import Mathlib

/-!
Verification of the leaderboard server of the gpu_kernels repository
(src/server/main.py and src/server/auth.py).

Modelling conventions:
* The SQLite database is modelled as in-memory lists of rows plus the
  AUTOINCREMENT counters (SQLite assigns a fresh id strictly larger than
  every id ever used, modelled by the counters).
* Timestamps are written by the server as datetime.now().isoformat()
  strings; for same-process writes these strings compare lexicographically
  in chronological order, so time points are modelled as natural numbers
  and the current time is passed as an explicit argument.
* String columns are Lean strings; nullable columns are Option String.
* The jwt library used by auth.py is external to the repository; its
  HMAC signature is modelled symbolically (a tag determined by the secret
  and the signed payload), and its expiry check follows RFC 7519 exp
  semantics (the current time must be strictly before the expiry).
* SQLite LIMIT semantics are modelled exactly: a negative LIMIT value
  means no upper bound on the number of returned rows.
-/

/-- A row of the users table (src/server/main.py, init_db). -/
structure User where
  id : Nat
  provider : String
  provider_id : String
  username : String
  name : Option String
  email : Option String
  avatar_url : Option String
  created_at : Nat
deriving DecidableEq, Repr

/-- A row of the submissions table (src/server/main.py, init_db). -/
structure Submission where
  id : Nat
  user_id : Nat
  operation : String
  overload : Option String
  dsl : String
  device : String
  file_name : String
  file_content : String
  timestamp : Nat
  status : String
  evaluation_result : Option String
  evaluated_at : Option String
deriving DecidableEq, Repr

/-- The request body of POST /api/submit (class KernelSubmission). -/
structure KernelSubmission where
  operation : String
  overload : Option String
  dsl : String
  device : String
  file_name : String
  file_content : String
deriving DecidableEq, Repr

/-- The normalized identity record returned by verify_github_token. -/
structure UserInfo where
  provider : String
  provider_id : String
  username : String
  name : Option String
  email : Option String
  avatar_url : Option String
deriving DecidableEq, Repr

/-- The database state: the two tables created by init_db together with
the AUTOINCREMENT counters of their integer primary keys. -/
structure DB where
  users : List User
  nextUserId : Nat
  submissions : List Submission
  nextSubmissionId : Nat
deriving DecidableEq, Repr

/-- The empty database produced by init_db on a fresh file
(SQLite AUTOINCREMENT starts assigning ids at 1). -/
def init_db : DB := ⟨[], 1, [], 1⟩

/-- The UPDATE statement of auth_github: overwrite the display fields of
the row with the matched id, leaving every other row and column alone. -/
def updateUserFields (info : UserInfo) (targetId : Nat) (v : User) : User :=
  if v.id = targetId then
    { v with username := info.username, name := info.name,
             email := info.email, avatar_url := info.avatar_url }
  else v

/-- The user-directory part of auth_github (src/server/main.py lines
96-138): look up by (provider, provider_id); if present, update
username/name/email/avatar_url in place and return the existing id;
if absent, insert a fresh row whose id is cursor.lastrowid and whose
created_at is the current time.  Returns the new state and the user id. -/
def upsertUser (db : DB) (info : UserInfo) (now : Nat) : DB × Nat :=
  match db.users.find? (fun u => u.provider == info.provider && u.provider_id == info.provider_id) with
  | some u =>
      ({ db with users := db.users.map (updateUserFields info u.id) }, u.id)
  | none =>
      ({ db with
          users := db.users ++
            [⟨db.nextUserId, info.provider, info.provider_id, info.username,
              info.name, info.email, info.avatar_url, now⟩],
          nextUserId := db.nextUserId + 1 },
       db.nextUserId)

/-- submit_kernel (src/server/main.py lines 163-195): insert one row into
submissions with the authenticated user's id, the submitted fields and the
current timestamp; the status, evaluation_result and evaluated_at columns
are not named in the INSERT, so SQLite fills them from the schema defaults
(status DEFAULT 'pending', the other two NULL).  Returns the new state and
the id handed back in the response. -/
def submit_kernel (db : DB) (userId : Nat) (s : KernelSubmission) (now : Nat) : DB × Nat :=
  ({ db with
      submissions := db.submissions ++
        [⟨db.nextSubmissionId, userId, s.operation, s.overload, s.dsl, s.device,
          s.file_name, s.file_content, now, "pending", none, none⟩],
      nextSubmissionId := db.nextSubmissionId + 1 },
   db.nextSubmissionId)

/-- get_submission (src/server/main.py lines 261-276): the first row of the
inner join of submissions and users restricted to s.id = submission_id,
carrying the submitter's username and name; none models the 404 path. -/
def get_submission (db : DB) (submissionId : Nat) : Option (Submission × String × Option String) :=
  (db.submissions.find? (fun s => s.id == submissionId)).bind (fun s =>
    (db.users.find? (fun u => u.id == s.user_id)).map (fun u => (s, u.username, u.name)))

/-- mark_evaluated (src/server/main.py lines 279-304): if no submissions
row has the given id, raise HTTPException 404 (before any write);
otherwise update every row with that id to status = 'evaluated',
evaluation_result = result and evaluated_at = now. -/
def mark_evaluated (db : DB) (submissionId : Nat) (result : Option String) (now : String) :
    Except Nat DB :=
  if db.submissions.any (fun s => s.id == submissionId) then
    .ok { db with
            submissions := db.submissions.map (fun s =>
              if s.id = submissionId then
                { s with status := "evaluated", evaluation_result := result,
                         evaluated_at := some now }
              else s) }
  else
    .error 404

/-- Python truthiness of an optional query parameter (list_submissions uses
`if operation:` etc., so None and the empty string both leave the WHERE
clause untouched). -/
def truthyMatch (filt : Option String) (v : String) : Bool :=
  match filt with
  | none => true
  | some f => if f = "" then true else v == f

/-- SQLite LIMIT: a negative limit expression means no upper bound. -/
def applyLimit (limit : Int) (l : List α) : List α :=
  if limit < 0 then l else l.take limit.toNat

/-- The inner join of submissions and users on s.user_id = u.id, each row
carrying the matched user's username (users.id is a primary key, so the
first match is the only one). -/
def joinRows (db : DB) : List (Submission × String) :=
  db.submissions.filterMap (fun s =>
    (db.users.find? (fun u => u.id == s.user_id)).map (fun u => (s, u.username)))

/-- Comparison used by ORDER BY s.timestamp DESC. -/
def descByTime (a b : Submission × String) : Bool :=
  b.1.timestamp ≤ a.1.timestamp

/-- Comparison used by ORDER BY s.timestamp ASC. -/
def ascByTime (a b : Submission × String) : Bool :=
  a.1.timestamp ≤ b.1.timestamp

/-- list_submissions (src/server/main.py lines 198-238): join submissions
with users, keep the rows passing every truthy filter, order by descending
timestamp and apply LIMIT. -/
def list_submissions (db : DB) (operation dsl device status : Option String)
    (limit : Int) : List (Submission × String) :=
  applyLimit limit
    (((joinRows db).filter (fun r =>
        truthyMatch operation r.1.operation && truthyMatch dsl r.1.dsl &&
        truthyMatch device r.1.device && truthyMatch status r.1.status)).mergeSort
      descByTime)

/-- get_pending_submissions (src/server/main.py lines 241-258): join, keep
rows with status = 'pending', order by ascending timestamp, apply LIMIT. -/
def get_pending_submissions (db : DB) (limit : Int) : List (Submission × String) :=
  applyLimit limit
    (((joinRows db).filter (fun r => r.1.status == "pending")).mergeSort ascByTime)

/-- The response of GET /api/stats. -/
structure Stats where
  total_submissions : Nat
  pending_evaluations : Nat
  evaluated : Nat
  total_users : Nat
deriving DecidableEq, Repr

/-- get_stats (src/server/main.py lines 307-334). -/
def get_stats (db : DB) : Stats :=
  ⟨db.submissions.length,
   db.submissions.countP (fun s => s.status == "pending"),
   db.submissions.countP (fun s => s.status == "evaluated"),
   db.users.length⟩

/-- The claims embedded in a session token by auth_github together with
the exp claim added by create_access_token. -/
structure TokenClaims where
  user_id : Nat
  username : String
  provider : String
  exp : Nat
deriving DecidableEq, Repr

/-- Symbolic model of the HMAC signature of the jwt library: the tag is
determined by exactly the secret and the signed payload. -/
def hmacSign (secret : String) (c : TokenClaims) : String × TokenClaims :=
  (secret, c)

/-- A signed session token: payload plus signature. -/
structure Token where
  claims : TokenClaims
  sig : String × TokenClaims
deriving DecidableEq, Repr

/-- ACCESS_TOKEN_EXPIRE_MINUTES (src/server/auth.py line 11); time is
measured in minutes throughout the token model. -/
def ACCESS_TOKEN_EXPIRE_MINUTES : Nat := 60 * 24 * 7

/-- create_access_token (src/server/auth.py lines 39-45): extend the data
with exp = now + ACCESS_TOKEN_EXPIRE_MINUTES and sign with the server
secret. -/
def create_access_token (secret : String) (userId : Nat) (username provider : String)
    (now : Nat) : Token :=
  ⟨⟨userId, username, provider, now + ACCESS_TOKEN_EXPIRE_MINUTES⟩,
   hmacSign secret ⟨userId, username, provider, now + ACCESS_TOKEN_EXPIRE_MINUTES⟩⟩

/-- Outcome of verify_token: the decoded payload, or the 401 raised on
jwt.ExpiredSignatureError, or the 401 raised on jwt.JWTError. -/
inductive VerifyOutcome where
  | ok (claims : TokenClaims)
  | expired
  | invalid
deriving DecidableEq, Repr

/-- verify_token (src/server/auth.py lines 48-57): jwt.decode first checks
the signature against the current secret (failure raises jwt.JWTError,
mapped to 401 Invalid token), then the exp claim (RFC 7519: the current
time must be strictly before exp; failure raises jwt.ExpiredSignatureError,
mapped to 401 Token has expired). -/
def verify_token (secret : String) (now : Nat) (t : Token) : VerifyOutcome :=
  if t.sig = hmacSign secret t.claims then
    if t.claims.exp ≤ now then .expired else .ok t.claims
  else .invalid

/-- The database state after a mark_evaluated request: on the 404 path the
handler raises before executing any UPDATE, so the state is unchanged. -/
def mark_evaluated_state (db : DB) (submissionId : Nat) (result : Option String)
    (now : String) : DB :=
  match mark_evaluated db submissionId result now with
  | .ok db2 => db2
  | .error _ => db

/-- One state-mutating request handled by the server (the read-only
endpoints do not touch the database). -/
inductive ServerAction where
  | submitReq (userId : Nat) (s : KernelSubmission) (now : Nat)
  | evaluateReq (submissionId : Nat) (result : Option String) (now : String)
  | authReq (info : UserInfo) (now : Nat)

/-- Effect of one request on the database state. -/
def execAction (db : DB) (a : ServerAction) : DB :=
  match a with
  | .submitReq uid s now => (submit_kernel db uid s now).1
  | .evaluateReq sid r now => mark_evaluated_state db sid r now
  | .authReq info now => (upsertUser db info now).1

/-- Well-formedness of the users table maintained by SQLite: the primary
key is unique and below the AUTOINCREMENT counter, and the
UNIQUE(provider, provider_id) constraint holds. -/
def usersWF (db : DB) : Prop :=
  (∀ u ∈ db.users, u.id < db.nextUserId) ∧
  db.users.Pairwise (fun a b => a.id ≠ b.id) ∧
  db.users.Pairwise (fun a b => ¬(a.provider = b.provider ∧ a.provider_id = b.provider_id))

/-- Re-authentications with the same external identity: every upsert in
the chain returns the given user id and leaves the directory holding a row
with that id and the freshly supplied display fields. -/
def chainKeepsId : DB → List (UserInfo × Nat) → Nat → Prop
  | _, [], _ => True
  | db, (info, now) :: rest, uid =>
      (upsertUser db info now).2 = uid ∧
      (∃ u ∈ (upsertUser db info now).1.users,
        u.id = uid ∧ u.username = info.username ∧ u.name = info.name ∧
        u.email = info.email ∧ u.avatar_url = info.avatar_url) ∧
      chainKeepsId (upsertUser db info now).1 rest uid

/-- Concrete sample user row used by witnesses. -/
def sampleUser : User := ⟨1, "github", "42", "alice", none, none, none, 0⟩

/-- Concrete sample database holding one registered user and no
submissions. -/
def sampleDB : DB := ⟨[sampleUser], 2, [], 1⟩

/-- Concrete sample submission row (pending). -/
def sampleRow : Submission :=
  ⟨1, 1, "add", none, "cutedsl", "A100", "add_v1.py", "code", 10, "pending", none, none⟩

/-- Concrete sample database holding one user and one pending submission. -/
def sampleDB2 : DB := ⟨[sampleUser], 2, [sampleRow], 2⟩

/-- A submission request whose required fields are all empty strings. -/
def emptySubmission : KernelSubmission := ⟨"", none, "", "", "", ""⟩

/-- Concrete sample identity used by witnesses. -/
def sampleInfo : UserInfo := ⟨"github", "42", "alice", none, none, none⟩

/-- The same external identity after a display-name change. -/
def sampleInfo2 : UserInfo :=
  ⟨"github", "42", "alice2", some "Alice", some "a@x.io", some "http://a"⟩

/-- Concrete sample submission request used by witnesses. -/
def sampleReq : KernelSubmission := ⟨"add", none, "cutedsl", "A100", "add_v1.py", "code"⟩

/-- Helper: the updated-or-unchanged map applied by mark_evaluated. -/
theorem mark_evaluated_ok (db : DB) (sid : Nat) (r : Option String) (t : String)
    (h : ∃ s ∈ db.submissions, s.id = sid) :
    ∃ db2, mark_evaluated db sid r t = .ok db2 ∧
      (∀ s ∈ db2.submissions, s.id = sid →
        s.status = "evaluated" ∧ s.evaluation_result = r ∧ s.evaluated_at = some t) ∧
      (∃ s ∈ db2.submissions, s.id = sid) := by
  obtain ⟨s0, hs0, hs0id⟩ := h
  have hany : db.submissions.any (fun s => s.id == sid) = true :=
    List.any_eq_true.mpr ⟨s0, hs0, by simp [hs0id]⟩
  refine ⟨_, by unfold mark_evaluated; rw [if_pos hany], ?_, ?_⟩
  · intro s hs hsid
    obtain ⟨a, ha, hfa⟩ := List.mem_map.mp hs
    by_cases hc : a.id = sid
    · rw [if_pos hc] at hfa
      rw [← hfa]
      exact ⟨rfl, rfl, rfl⟩
    · rw [if_neg hc] at hfa
      rw [← hfa] at hsid
      exact absurd hsid hc
  · refine ⟨{ s0 with status := "evaluated", evaluation_result := r, evaluated_at := some t },
      List.mem_map.mpr ⟨s0, hs0, by rw [if_pos hs0id]⟩, hs0id⟩

/-- C1: a successful submission-create call stores a row with
status = pending, evaluation_result = null and evaluated_at = null, and a
subsequent get on the returned id (before any evaluate call) returns that
same record. -/
theorem submit_then_get_pending
    (db : DB) (uid : Nat) (s : KernelSubmission) (now : Nat)
    (hid : ∀ r ∈ db.submissions, r.id < db.nextSubmissionId)
    (huser : ∃ u ∈ db.users, u.id = uid) :
    ∃ row : Submission,
      row ∈ (submit_kernel db uid s now).1.submissions ∧
      row.id = (submit_kernel db uid s now).2 ∧
      row.status = "pending" ∧ row.evaluation_result = none ∧ row.evaluated_at = none ∧
      ∃ un nm,
        get_submission (submit_kernel db uid s now).1 (submit_kernel db uid s now).2
          = some (row, un, nm) := by
  obtain ⟨u, humem, huid⟩ := huser
  set row : Submission :=
    ⟨db.nextSubmissionId, uid, s.operation, s.overload, s.dsl, s.device,
      s.file_name, s.file_content, now, "pending", none, none⟩ with hrow
  have hfindsub :
      (db.submissions ++ [row]).find? (fun r => r.id == db.nextSubmissionId) = some row := by
    rw [List.find?_append]
    have hnone : db.submissions.find? (fun r => r.id == db.nextSubmissionId) = none := by
      rw [List.find?_eq_none]
      intro x hx
      simp only [beq_iff_eq]
      exact Nat.ne_of_lt (hid x hx)
    rw [hnone]
    simp [List.find?, hrow]
  have hu0 : ∃ u0, db.users.find? (fun v => v.id == uid) = some u0 :=
    Option.isSome_iff_exists.mp (List.find?_isSome.mpr ⟨u, humem, by simp [huid]⟩)
  obtain ⟨u0, hu0⟩ := hu0
  have e1 : (submit_kernel db uid s now).1.submissions = db.submissions ++ [row] := rfl
  have e2 : (submit_kernel db uid s now).2 = db.nextSubmissionId := rfl
  have e3 : (submit_kernel db uid s now).1.users = db.users := rfl
  refine ⟨row, ?_, rfl, rfl, rfl, rfl, u0.username, u0.name, ?_⟩
  · rw [e1]
    exact List.mem_append_right _ (by simp)
  · unfold get_submission
    rw [e1, e2, hfindsub]
    show (db.users.find? (fun u1 => u1.id == row.user_id)).map
        (fun u1 => (row, u1.username, u1.name)) = some (row, u0.username, u0.name)
    have hu0q : db.users.find? (fun v => v.id == row.user_id) = some u0 := hu0
    rw [hu0q]
    rfl

/-- Witness for C1 at a concrete database and request. -/
theorem submit_then_get_pending_witness :
    ((∀ r ∈ sampleDB.submissions, r.id < sampleDB.nextSubmissionId) ∧
      (∃ u ∈ sampleDB.users, u.id = 1)) ∧
    (∃ row : Submission,
      row ∈ (submit_kernel sampleDB 1 sampleReq 10).1.submissions ∧
      row.id = (submit_kernel sampleDB 1 sampleReq 10).2 ∧
      row.status = "pending" ∧ row.evaluation_result = none ∧ row.evaluated_at = none ∧
      ∃ un nm,
        get_submission (submit_kernel sampleDB 1 sampleReq 10).1
          (submit_kernel sampleDB 1 sampleReq 10).2 = some (row, un, nm)) :=
  ⟨⟨by decide, by decide⟩,
    submit_then_get_pending sampleDB 1 sampleReq 10 (by decide) (by decide)⟩

/-- C2: markEvaluated on an existing id sets status = evaluated,
evaluation_result and evaluated_at unconditionally, and a second call on
the same id succeeds again, keeping status = evaluated while overwriting
evaluation_result and evaluated_at with the new values. -/
theorem mark_evaluated_sets_then_overwrites
    (db : DB) (sid : Nat) (r1 : Option String) (t1 : String)
    (h : ∃ s ∈ db.submissions, s.id = sid) :
    ∃ db1, mark_evaluated db sid r1 t1 = .ok db1 ∧
      (∀ s ∈ db1.submissions, s.id = sid →
        s.status = "evaluated" ∧ s.evaluation_result = r1 ∧ s.evaluated_at = some t1) ∧
      ∀ r2 t2, ∃ db2, mark_evaluated db1 sid r2 t2 = .ok db2 ∧
        (∀ s ∈ db2.submissions, s.id = sid →
          s.status = "evaluated" ∧ s.evaluation_result = r2 ∧ s.evaluated_at = some t2) := by
  obtain ⟨db1, he1, hset1, hex1⟩ := mark_evaluated_ok db sid r1 t1 h
  refine ⟨db1, he1, hset1, ?_⟩
  intro r2 t2
  obtain ⟨db2, he2, hset2, _⟩ := mark_evaluated_ok db1 sid r2 t2 hex1
  exact ⟨db2, he2, hset2⟩

/-- Witness for C2 at a concrete database holding submission id 1. -/
theorem mark_evaluated_sets_then_overwrites_witness :
    (∃ s ∈ sampleDB2.submissions, s.id = 1) ∧
    (∃ db1, mark_evaluated sampleDB2 1 (some "score=0.92") "t1" = .ok db1 ∧
      (∀ s ∈ db1.submissions, s.id = 1 →
        s.status = "evaluated" ∧ s.evaluation_result = some "score=0.92" ∧
        s.evaluated_at = some "t1") ∧
      ∀ r2 t2, ∃ db2, mark_evaluated db1 1 r2 t2 = .ok db2 ∧
        (∀ s ∈ db2.submissions, s.id = 1 →
          s.status = "evaluated" ∧ s.evaluation_result = r2 ∧ s.evaluated_at = some t2)) :=
  ⟨by decide,
    mark_evaluated_sets_then_overwrites sampleDB2 1 (some "score=0.92") "t1" (by decide)⟩

/-- C3: markEvaluated on a non-existent id fails with 404 and leaves the
submissions state unchanged. -/
theorem mark_evaluated_missing_404
    (db : DB) (sid : Nat) (r : Option String) (t : String)
    (h : ∀ s ∈ db.submissions, s.id ≠ sid) :
    mark_evaluated db sid r t = .error 404 ∧ mark_evaluated_state db sid r t = db := by
  have hany : ¬ db.submissions.any (fun s => s.id == sid) = true := by
    rw [List.any_eq_true]
    rintro ⟨x, hx, hbeq⟩
    exact h x hx (by simpa using hbeq)
  have he : mark_evaluated db sid r t = .error 404 := by
    unfold mark_evaluated
    rw [if_neg hany]
  exact ⟨he, by unfold mark_evaluated_state; rw [he]⟩

/-- Witness for C3 at a concrete database with no submission id 99. -/
theorem mark_evaluated_missing_404_witness :
    (∀ s ∈ sampleDB2.submissions, s.id ≠ 99) ∧
    (mark_evaluated sampleDB2 99 (some "x") "t" = .error 404 ∧
      mark_evaluated_state sampleDB2 99 (some "x") "t" = sampleDB2) :=
  ⟨by decide, mark_evaluated_missing_404 sampleDB2 99 (some "x") "t" (by decide)⟩

/-- Counterexample to C4 as stated: submitting with every required field
equal to the empty string does not fail and does create a submission row. -/
theorem submit_empty_fields_counterexample :
    (submit_kernel sampleDB 1 emptySubmission 5).1.submissions.length
      = sampleDB.submissions.length + 1 := by decide

/-- C4 amended: an authenticated submission-create call with an empty
required field is accepted: exactly one row holding the empty values is
appended and its id is returned; the server performs no emptiness
validation. -/
theorem submit_empty_fields_accepted
    (db : DB) (uid : Nat) (s : KernelSubmission) (now : Nat)
    (h : s.operation = "" ∨ s.dsl = "" ∨ s.device = "" ∨
      s.file_name = "" ∨ s.file_content = "") :
    (submit_kernel db uid s now).1.submissions
        = db.submissions ++
          [⟨db.nextSubmissionId, uid, s.operation, s.overload, s.dsl, s.device,
            s.file_name, s.file_content, now, "pending", none, none⟩] ∧
    (submit_kernel db uid s now).2 = db.nextSubmissionId :=
  ⟨rfl, rfl⟩

/-- Witness for the amended C4 at a concrete all-empty request. -/
theorem submit_empty_fields_accepted_witness :
    (emptySubmission.operation = "" ∨ emptySubmission.dsl = "" ∨
      emptySubmission.device = "" ∨ emptySubmission.file_name = "" ∨
      emptySubmission.file_content = "") ∧
    ((submit_kernel sampleDB 1 emptySubmission 5).1.submissions
        = sampleDB.submissions ++
          [⟨sampleDB.nextSubmissionId, 1, emptySubmission.operation,
            emptySubmission.overload, emptySubmission.dsl, emptySubmission.device,
            emptySubmission.file_name, emptySubmission.file_content, 5,
            "pending", none, none⟩] ∧
      (submit_kernel sampleDB 1 emptySubmission 5).2 = sampleDB.nextSubmissionId) :=
  ⟨Or.inl rfl, submit_empty_fields_accepted sampleDB 1 emptySubmission 5 (Or.inl rfl)⟩

/-- C10: a filter supplied as the empty string behaves identically to an
absent filter, for each of operation, dsl, device and status. -/
theorem empty_filter_same_as_absent
    (db : DB) (operation dsl device status : Option String) (limit : Int) :
    list_submissions db (some "") dsl device status limit
        = list_submissions db none dsl device status limit ∧
    list_submissions db operation (some "") device status limit
        = list_submissions db operation none device status limit ∧
    list_submissions db operation dsl (some "") status limit
        = list_submissions db operation dsl none status limit ∧
    list_submissions db operation dsl device (some "") limit
        = list_submissions db operation dsl device none limit := by
  have h : truthyMatch (some "") = truthyMatch none :=
    funext (fun v => by simp [truthyMatch])
  refine ⟨?_, ?_, ?_, ?_⟩ <;>
    · unfold list_submissions
      rw [h]

/-- Helper: one request keeps every submission status in the two-value
domain. -/
theorem execAction_status (db : DB) (a : ServerAction)
    (h : ∀ s ∈ db.submissions, s.status = "pending" ∨ s.status = "evaluated") :
    ∀ s ∈ (execAction db a).submissions,
      s.status = "pending" ∨ s.status = "evaluated" := by
  cases a with
  | submitReq uid q now =>
      intro s hs
      have hs2 : s ∈ db.submissions ++
          [(⟨db.nextSubmissionId, uid, q.operation, q.overload, q.dsl, q.device,
              q.file_name, q.file_content, now, "pending", none, none⟩ : Submission)] := hs
      rcases List.mem_append.mp hs2 with hmem | hmem
      · exact h s hmem
      · left
        have heq : s = ⟨db.nextSubmissionId, uid, q.operation, q.overload, q.dsl, q.device,
            q.file_name, q.file_content, now, "pending", none, none⟩ := by simpa using hmem
        rw [heq]
  | evaluateReq sid r t =>
      intro s hs
      have hs2 : s ∈ (mark_evaluated_state db sid r t).submissions := hs
      unfold mark_evaluated_state mark_evaluated at hs2
      by_cases hc : db.submissions.any (fun s1 => s1.id == sid) = true
      · rw [if_pos hc] at hs2
        have hs3 : s ∈ db.submissions.map (fun s1 =>
            if s1.id = sid then
              { s1 with status := "evaluated", evaluation_result := r,
                        evaluated_at := some t }
            else s1) := hs2
        obtain ⟨b, hb, hfb⟩ := List.mem_map.mp hs3
        by_cases hcb : b.id = sid
        · rw [if_pos hcb] at hfb
          right
          rw [← hfb]
        · rw [if_neg hcb] at hfb
          rw [← hfb]
          exact h b hb
      · rw [if_neg hc] at hs2
        exact h s hs2
  | authReq info now =>
      intro s hs
      have hsub : (upsertUser db info now).1.submissions = db.submissions := by
        unfold upsertUser
        cases db.users.find? (fun u =>
          u.provider == info.provider && u.provider_id == info.provider_id) <;> rfl
      have hs2 : s ∈ (upsertUser db info now).1.submissions := hs
      rw [hsub] at hs2
      exact h s hs2

/-- C9: in every database state reachable from the initial one through
server requests, each submission status is exactly pending or evaluated,
and the stats endpoint satisfies
total_submissions = pending_evaluations + evaluated. -/
theorem status_domain_and_stats_consistent (acts : List ServerAction) :
    (∀ s ∈ (acts.foldl execAction init_db).submissions,
        s.status = "pending" ∨ s.status = "evaluated") ∧
    (get_stats (acts.foldl execAction init_db)).total_submissions
      = (get_stats (acts.foldl execAction init_db)).pending_evaluations
        + (get_stats (acts.foldl execAction init_db)).evaluated := by
  have gen : ∀ (l : List ServerAction) (db : DB),
      (∀ s ∈ db.submissions, s.status = "pending" ∨ s.status = "evaluated") →
      ∀ s ∈ (l.foldl execAction db).submissions,
        s.status = "pending" ∨ s.status = "evaluated" := by
    intro l
    induction l with
    | nil => intro db h; exact h
    | cons a l2 ih =>
        intro db h
        rw [List.foldl_cons]
        exact ih _ (execAction_status db a h)
  have hinv := gen acts init_db (by intro s hs; cases hs)
  refine ⟨hinv, ?_⟩
  show (acts.foldl execAction init_db).submissions.length
      = (acts.foldl execAction init_db).submissions.countP
          (fun s => s.status == "pending")
        + (acts.foldl execAction init_db).submissions.countP
            (fun s => s.status == "evaluated")
  rw [List.length_eq_countP_add_countP (fun s => s.status == "pending")]
  congr 1
  apply List.countP_congr
  intro x hx
  rcases hinv x hx with hp | he
  · rw [hp]
    decide
  · rw [he]
    decide

/-- Helper: verifying a freshly issued token with the issuing secret
reduces to the expiry check. -/
theorem verify_create_same (secret : String) (uid : Nat) (uname prov : String)
    (issued now : Nat) :
    verify_token secret now (create_access_token secret uid uname prov issued)
      = if issued + ACCESS_TOKEN_EXPIRE_MINUTES ≤ now then .expired
        else .ok ⟨uid, uname, prov, issued + ACCESS_TOKEN_EXPIRE_MINUTES⟩ := by
  unfold verify_token create_access_token hmacSign
  rw [if_pos rfl]

/-- Helper: verifying with a different secret fails the signature check. -/
theorem verify_create_wrong_secret (secret s2 : String) (uid : Nat)
    (uname prov : String) (issued now : Nat) (h : s2 ≠ secret) :
    verify_token s2 now (create_access_token secret uid uname prov issued)
      = .invalid := by
  have hne : (create_access_token secret uid uname prov issued).sig
      ≠ hmacSign s2 (create_access_token secret uid uname prov issued).claims := by
    intro hcontra
    have h2 : secret = s2 := congrArg Prod.fst hcontra
    exact h h2.symm
  unfold verify_token
  rw [if_neg hne]

/-- Helper: a token whose payload was changed under the original
signature fails the signature check. -/
theorem verify_tampered (secret : String) (uid : Nat) (uname prov : String)
    (issued now : Nat) (c2 : TokenClaims)
    (h : c2 ≠ (create_access_token secret uid uname prov issued).claims) :
    verify_token secret now
      ⟨c2, (create_access_token secret uid uname prov issued).sig⟩ = .invalid := by
  have hne : (⟨c2, (create_access_token secret uid uname prov issued).sig⟩ : Token).sig
      ≠ hmacSign secret c2 := by
    intro hcontra
    have h2 : (create_access_token secret uid uname prov issued).claims = c2 :=
      congrArg Prod.snd hcontra
    exact h h2.symm
  unfold verify_token
  rw [if_neg hne]

/-- C6: a session token verifies successfully iff the verifying secret is
the issuing secret and the current time is before issue time + 7 days;
once the current time reaches the embedded expiry it fails as expired, and
any token whose payload was tampered with fails as invalid. -/
theorem session_token_verification
    (secret s2 : String) (uid : Nat) (uname prov : String) (issued now : Nat) :
    (verify_token s2 now (create_access_token secret uid uname prov issued)
        = .ok (create_access_token secret uid uname prov issued).claims
      ↔ s2 = secret ∧ now < issued + ACCESS_TOKEN_EXPIRE_MINUTES) ∧
    (issued + ACCESS_TOKEN_EXPIRE_MINUTES ≤ now →
      verify_token secret now (create_access_token secret uid uname prov issued)
        = .expired) ∧
    ∀ c2 : TokenClaims, c2 ≠ (create_access_token secret uid uname prov issued).claims →
      verify_token secret now
        ⟨c2, (create_access_token secret uid uname prov issued).sig⟩ = .invalid := by
  refine ⟨⟨?_, ?_⟩, ?_, ?_⟩
  · intro hok
    by_cases hs : s2 = secret
    · subst hs
      rw [verify_create_same] at hok
      by_cases ht : issued + ACCESS_TOKEN_EXPIRE_MINUTES ≤ now
      · rw [if_pos ht] at hok
        exact absurd hok (by simp)
      · exact ⟨rfl, Nat.lt_of_not_le ht⟩
    · rw [verify_create_wrong_secret secret s2 uid uname prov issued now hs] at hok
      exact absurd hok (by simp)
  · rintro ⟨hs, ht⟩
    subst hs
    rw [verify_create_same, if_neg (Nat.not_le.mpr ht)]
    rfl
  · intro ht
    rw [verify_create_same, if_pos ht]
  · intro c2 hne
    exact verify_tampered secret uid uname prov issued now c2 hne

/-- Witness for C6 at a concrete secret, identity and clock. -/
theorem session_token_verification_witness :
    (verify_token "k" 5 (create_access_token "k" 1 "alice" "github" 0)
        = .ok (create_access_token "k" 1 "alice" "github" 0).claims
      ↔ "k" = "k" ∧ 5 < 0 + ACCESS_TOKEN_EXPIRE_MINUTES) ∧
    (0 + ACCESS_TOKEN_EXPIRE_MINUTES ≤ 5 →
      verify_token "k" 5 (create_access_token "k" 1 "alice" "github" 0) = .expired) ∧
    ∀ c2 : TokenClaims, c2 ≠ (create_access_token "k" 1 "alice" "github" 0).claims →
      verify_token "k" 5 ⟨c2, (create_access_token "k" 1 "alice" "github" 0).sig⟩
        = .invalid :=
  session_token_verification "k" "k" 1 "alice" "github" 0 5

/-- Helper: updateUserFields never changes the primary key. -/
theorem updateUserFields_id (info : UserInfo) (tid : Nat) (v : User) :
    (updateUserFields info tid v).id = v.id := by
  unfold updateUserFields
  by_cases hc : v.id = tid
  · rw [if_pos hc]
  · rw [if_neg hc]

/-- Helper: updateUserFields never changes the provider column. -/
theorem updateUserFields_provider (info : UserInfo) (tid : Nat) (v : User) :
    (updateUserFields info tid v).provider = v.provider := by
  unfold updateUserFields
  by_cases hc : v.id = tid
  · rw [if_pos hc]
  · rw [if_neg hc]

/-- Helper: updateUserFields never changes the provider_id column. -/
theorem updateUserFields_provider_id (info : UserInfo) (tid : Nat) (v : User) :
    (updateUserFields info tid v).provider_id = v.provider_id := by
  unfold updateUserFields
  by_cases hc : v.id = tid
  · rw [if_pos hc]
  · rw [if_neg hc]

/-- Helper: an upsert that finds the pair present returns the id of the
matched row, preserves well-formedness, and leaves a row with that id
carrying the freshly supplied display fields. -/
theorem upsertUser_existing (db : DB) (info : UserInfo) (now : Nat) (u : User)
    (hwf : usersWF db) (hu : u ∈ db.users)
    (hp : info.provider = u.provider) (hpid : info.provider_id = u.provider_id) :
    (upsertUser db info now).2 = u.id ∧
    usersWF (upsertUser db info now).1 ∧
    ∃ u2 ∈ (upsertUser db info now).1.users,
      u2.id = u.id ∧ u2.provider = u.provider ∧ u2.provider_id = u.provider_id ∧
      u2.username = info.username ∧ u2.name = info.name ∧
      u2.email = info.email ∧ u2.avatar_url = info.avatar_url := by
  obtain ⟨hlt, hidpw, hppw⟩ := hwf
  have hsome : ∃ u1, db.users.find?
      (fun v => v.provider == info.provider && v.provider_id == info.provider_id)
      = some u1 :=
    Option.isSome_iff_exists.mp (List.find?_isSome.mpr ⟨u, hu, by simp [hp, hpid]⟩)
  obtain ⟨u1, hfind⟩ := hsome
  have hu1mem : u1 ∈ db.users := List.mem_of_find?_eq_some hfind
  have hu1pred := List.find?_some hfind
  have hu1p : u1.provider = info.provider ∧ u1.provider_id = info.provider_id := by
    simpa using hu1pred
  have huu1 : u1 = u := by
    by_contra hne
    have hsym : Symmetric (fun a b : User =>
        ¬(a.provider = b.provider ∧ a.provider_id = b.provider_id)) := by
      intro a b hab hcontra
      exact hab ⟨hcontra.1.symm, hcontra.2.symm⟩
    have hr := List.Pairwise.forall hsym hppw hu1mem hu hne
    exact hr ⟨hu1p.1.trans hp, hu1p.2.trans hpid⟩
  subst huu1
  have hup : upsertUser db info now
      = ({ db with users := db.users.map (updateUserFields info u1.id) }, u1.id) := by
    unfold upsertUser
    rw [hfind]
  refine ⟨by rw [hup], ?_, ?_⟩
  · rw [hup]
    refine ⟨?_, ?_, ?_⟩
    · intro x hx
      have hx2 : x ∈ db.users.map (updateUserFields info u1.id) := hx
      obtain ⟨a, ha, hfa⟩ := List.mem_map.mp hx2
      have : x.id = a.id := by rw [← hfa]; exact updateUserFields_id info u1.id a
      rw [this]
      exact hlt a ha
    · exact List.Pairwise.map _ (fun a b hab => by
        rw [updateUserFields_id, updateUserFields_id]; exact hab) hidpw
    · exact List.Pairwise.map _ (fun a b hab hcontra => by
        rw [updateUserFields_provider, updateUserFields_provider,
          updateUserFields_provider_id, updateUserFields_provider_id] at hcontra
        exact hab hcontra) hppw
  · refine ⟨updateUserFields info u1.id u1,
      by rw [hup]; exact List.mem_map.mpr ⟨u1, hu1mem, rfl⟩, ?_, ?_, ?_, ?_, ?_, ?_, ?_⟩
    · exact updateUserFields_id info u1.id u1
    · exact updateUserFields_provider info u1.id u1
    · exact updateUserFields_provider_id info u1.id u1
    · unfold updateUserFields
      rw [if_pos rfl]
    · unfold updateUserFields
      rw [if_pos rfl]
    · unfold updateUserFields
      rw [if_pos rfl]
    · unfold updateUserFields
      rw [if_pos rfl]

/-- Helper: a chain of upserts for the identity pair of a stored row keeps
returning that row's id while refreshing its display fields. -/
theorem upsert_chain (rest : List (UserInfo × Nat)) :
    ∀ (db : DB) (u : User), usersWF db → u ∈ db.users →
      (∀ x ∈ rest, x.1.provider = u.provider ∧ x.1.provider_id = u.provider_id) →
      chainKeepsId db rest u.id := by
  induction rest with
  | nil =>
      intro db u _ _ _
      trivial
  | cons p rest2 ih =>
      intro db u hwf hu hall
      obtain ⟨info, tnow⟩ := p
      obtain ⟨hp, hpid⟩ := hall (info, tnow) (List.mem_cons_self _ _)
      obtain ⟨hid2, hwf2, u2, hu2mem, hu2id, hu2p, hu2pid, hu2un, hu2nm, hu2em, hu2av⟩ :=
        upsertUser_existing db info tnow u hwf hu hp hpid
      refine ⟨hid2, ⟨u2, hu2mem, hu2id, hu2un, hu2nm, hu2em, hu2av⟩, ?_⟩
      have hchain := ih (upsertUser db info tnow).1 u2 hwf2 hu2mem (by
        intro x hx
        obtain ⟨hxp, hxpid⟩ := hall x (List.mem_cons_of_mem _ hx)
        exact ⟨hxp.trans hu2p.symm, hxpid.trans hu2pid.symm⟩)
      rw [hu2id] at hchain
      exact hchain

/-- C5: the first upsert for a (provider, provider_id) pair inserts a new
user row with a fresh id and the current creation time, and every
subsequent upsert for the same pair returns that same internal id while
updating username, name, email and avatar_url in place. -/
theorem upsert_first_insert_then_stable
    (db : DB) (info : UserInfo) (now : Nat)
    (hwf : usersWF db)
    (habs : ∀ u ∈ db.users,
      ¬(u.provider = info.provider ∧ u.provider_id = info.provider_id)) :
    (upsertUser db info now).2 = db.nextUserId ∧
    (upsertUser db info now).1.users
      = db.users ++ [⟨db.nextUserId, info.provider, info.provider_id, info.username,
          info.name, info.email, info.avatar_url, now⟩] ∧
    ∀ rest : List (UserInfo × Nat),
      (∀ x ∈ rest, x.1.provider = info.provider ∧ x.1.provider_id = info.provider_id) →
      chainKeepsId (upsertUser db info now).1 rest db.nextUserId := by
  have hfind : db.users.find?
      (fun v => v.provider == info.provider && v.provider_id == info.provider_id)
      = none := by
    rw [List.find?_eq_none]
    intro x hx hcontra
    simp only [Bool.and_eq_true, beq_iff_eq] at hcontra
    exact habs x hx hcontra
  have hup : upsertUser db info now
      = ({ db with
            users := db.users ++
              [⟨db.nextUserId, info.provider, info.provider_id, info.username,
                info.name, info.email, info.avatar_url, now⟩],
            nextUserId := db.nextUserId + 1 },
         db.nextUserId) := by
    unfold upsertUser
    rw [hfind]
  obtain ⟨hlt, hidpw, hppw⟩ := hwf
  refine ⟨by rw [hup], by rw [hup], ?_⟩
  intro rest hall
  have hwf2 : usersWF (upsertUser db info now).1 := by
    rw [hup]
    refine ⟨?_, ?_, ?_⟩
    · intro x hx
      have hx2 : x ∈ db.users ++ [(⟨db.nextUserId, info.provider, info.provider_id,
          info.username, info.name, info.email, info.avatar_url, now⟩ : User)] := hx
      rcases List.mem_append.mp hx2 with hm | hm
      · exact Nat.lt_succ_of_lt (hlt x hm)
      · have hxe : x = ⟨db.nextUserId, info.provider, info.provider_id,
            info.username, info.name, info.email, info.avatar_url, now⟩ := by simpa using hm
        rw [hxe]
        exact Nat.lt_succ_self _
    · rw [List.pairwise_append]
      refine ⟨hidpw, by simp, ?_⟩
      intro a ha b hb
      have hb2 : b = ⟨db.nextUserId, info.provider, info.provider_id,
          info.username, info.name, info.email, info.avatar_url, now⟩ := by simpa using hb
      rw [hb2]
      exact Nat.ne_of_lt (hlt a ha)
    · rw [List.pairwise_append]
      refine ⟨hppw, by simp, ?_⟩
      intro a ha b hb
      have hb2 : b = ⟨db.nextUserId, info.provider, info.provider_id,
          info.username, info.name, info.email, info.avatar_url, now⟩ := by simpa using hb
      rw [hb2]
      exact habs a ha
  have hmem : (⟨db.nextUserId, info.provider, info.provider_id, info.username,
      info.name, info.email, info.avatar_url, now⟩ : User)
      ∈ (upsertUser db info now).1.users := by
    rw [hup]
    exact List.mem_append_right _ (by simp)
  exact upsert_chain rest (upsertUser db info now).1
    ⟨db.nextUserId, info.provider, info.provider_id, info.username,
      info.name, info.email, info.avatar_url, now⟩ hwf2 hmem (by
    intro x hx
    exact hall x hx)

/-- Witness for C5: first login creates user id 1, and a later login with
changed display fields keeps id 1. -/
theorem upsert_first_insert_then_stable_witness :
    (usersWF init_db ∧
      (∀ u ∈ init_db.users,
        ¬(u.provider = sampleInfo.provider ∧ u.provider_id = sampleInfo.provider_id))) ∧
    ((upsertUser init_db sampleInfo 3).2 = init_db.nextUserId ∧
      (upsertUser init_db sampleInfo 3).1.users
        = init_db.users ++ [⟨init_db.nextUserId, sampleInfo.provider,
            sampleInfo.provider_id, sampleInfo.username, sampleInfo.name,
            sampleInfo.email, sampleInfo.avatar_url, 3⟩] ∧
      ∀ rest : List (UserInfo × Nat),
        (∀ x ∈ rest, x.1.provider = sampleInfo.provider ∧
          x.1.provider_id = sampleInfo.provider_id) →
        chainKeepsId (upsertUser init_db sampleInfo 3).1 rest init_db.nextUserId) := by
  have hwf : usersWF init_db := by
    refine ⟨?_, List.Pairwise.nil, List.Pairwise.nil⟩
    intro u hu
    cases hu
  have habs : ∀ u ∈ init_db.users,
      ¬(u.provider = sampleInfo.provider ∧ u.provider_id = sampleInfo.provider_id) := by
    intro u hu
    cases hu
  exact ⟨⟨hwf, habs⟩, upsert_first_insert_then_stable init_db sampleInfo 3 hwf habs⟩

/-- Helper: the descending-timestamp comparison is transitive. -/
theorem descByTime_trans (a b c : Submission × String)
    (hab : descByTime a b = true) (hbc : descByTime b c = true) :
    descByTime a c = true := by
  simp only [descByTime, decide_eq_true_eq] at hab hbc ⊢
  exact le_trans hbc hab

/-- Helper: the descending-timestamp comparison is total. -/
theorem descByTime_total (a b : Submission × String) :
    (descByTime a b || descByTime b a) = true := by
  simp only [descByTime, Bool.or_eq_true, decide_eq_true_eq]
  exact Nat.le_total b.1.timestamp a.1.timestamp

/-- Helper: the ascending-timestamp comparison is transitive. -/
theorem ascByTime_trans (a b c : Submission × String)
    (hab : ascByTime a b = true) (hbc : ascByTime b c = true) :
    ascByTime a c = true := by
  simp only [ascByTime, decide_eq_true_eq] at hab hbc ⊢
  exact le_trans hab hbc

/-- Helper: the ascending-timestamp comparison is total. -/
theorem ascByTime_total (a b : Submission × String) :
    (ascByTime a b || ascByTime b a) = true := by
  simp only [ascByTime, Bool.or_eq_true, decide_eq_true_eq]
  exact Nat.le_total a.1.timestamp b.1.timestamp

/-- Helper: a truthy equality filter that passes forces field equality. -/
theorem truthyMatch_eq_of_ne (f v : String) (hf : f ≠ "")
    (h : truthyMatch (some f) v = true) : v = f := by
  have h2 : (if f = "" then true else v == f) = true := h
  rw [if_neg hf] at h2
  exact beq_iff_eq.mp h2

/-- Helper: every joined row pairs a stored submission with the username
of a stored user whose id is the submission's user_id. -/
theorem joinRows_username (db : DB) (r : Submission × String) (h : r ∈ joinRows db) :
    r.1 ∈ db.submissions ∧ ∃ u ∈ db.users, u.id = r.1.user_id ∧ u.username = r.2 := by
  unfold joinRows at h
  obtain ⟨a, ha, hfa⟩ := List.mem_filterMap.mp h
  obtain ⟨u, hu, hfu⟩ := Option.map_eq_some'.mp hfa
  have humem : u ∈ db.users := List.mem_of_find?_eq_some hu
  have huid : u.id = a.user_id := by simpa using List.find?_some hu
  have hr1 : r.1 = a := by rw [← hfu]
  have hr2 : r.2 = u.username := by rw [← hfu]
  constructor
  · rw [hr1]
    exact ha
  · exact ⟨u, humem, by rw [hr1]; exact huid, hr2.symm⟩

/-- Helper: SQL LIMIT only ever drops rows, for any limit value. -/
theorem applyLimit_subset (limit : Int) (l : List α) : applyLimit limit l ⊆ l := by
  unfold applyLimit
  by_cases hc : limit < 0
  · rw [if_pos hc]
    exact List.Subset.refl l
  · rw [if_neg hc]
    exact List.take_subset _ _

/-- Helper: SQL LIMIT yields a sublist, for any limit value. -/
theorem applyLimit_sublist (limit : Int) (l : List α) : (applyLimit limit l).Sublist l := by
  unfold applyLimit
  by_cases hc : limit < 0
  · rw [if_pos hc]
  · rw [if_neg hc]
    exact List.take_sublist _ _

/-- C7 amended: every listing call returns only rows matching every
supplied non-empty filter value (an empty-string filter imposes no
constraint, like an absent one), sorted by descending timestamp, each row
carrying the submitter's username; and whenever the limit is nonnegative
the result has at most limit entries (a negative limit imposes no bound,
per SQL LIMIT semantics). -/
theorem list_submissions_filters_order_limit
    (db : DB) (operation dsl device status : Option String) (limit : Int) :
    (∀ r ∈ list_submissions db operation dsl device status limit,
      (∀ f, operation = some f → f ≠ "" → r.1.operation = f) ∧
      (∀ f, dsl = some f → f ≠ "" → r.1.dsl = f) ∧
      (∀ f, device = some f → f ≠ "" → r.1.device = f) ∧
      (∀ f, status = some f → f ≠ "" → r.1.status = f)) ∧
    (list_submissions db operation dsl device status limit).Pairwise
      (fun a b => b.1.timestamp ≤ a.1.timestamp) ∧
    (0 ≤ limit →
      ((list_submissions db operation dsl device status limit).length : Int) ≤ limit) ∧
    (∀ r ∈ list_submissions db operation dsl device status limit,
      ∃ u ∈ db.users, u.id = r.1.user_id ∧ u.username = r.2) := by
  have hmemfil : ∀ r ∈ list_submissions db operation dsl device status limit,
      r ∈ (joinRows db).filter (fun r =>
          truthyMatch operation r.1.operation && truthyMatch dsl r.1.dsl &&
          truthyMatch device r.1.device && truthyMatch status r.1.status) := by
    intro r hr
    have hr2 : r ∈ applyLimit limit (((joinRows db).filter (fun r =>
        truthyMatch operation r.1.operation && truthyMatch dsl r.1.dsl &&
        truthyMatch device r.1.device && truthyMatch status r.1.status)).mergeSort
      descByTime) := hr
    exact (List.mergeSort_perm _ descByTime).mem_iff.mp (applyLimit_subset _ _ hr2)
  refine ⟨?_, ?_, ?_, ?_⟩
  · intro r hr
    have hpred := (List.mem_filter.mp (hmemfil r hr)).2
    simp only [Bool.and_eq_true] at hpred
    obtain ⟨⟨⟨hop, hdsl⟩, hdev⟩, hst⟩ := hpred
    refine ⟨?_, ?_, ?_, ?_⟩
    · intro f hf hne
      rw [hf] at hop
      exact truthyMatch_eq_of_ne f _ hne hop
    · intro f hf hne
      rw [hf] at hdsl
      exact truthyMatch_eq_of_ne f _ hne hdsl
    · intro f hf hne
      rw [hf] at hdev
      exact truthyMatch_eq_of_ne f _ hne hdev
    · intro f hf hne
      rw [hf] at hst
      exact truthyMatch_eq_of_ne f _ hne hst
  · show (applyLimit limit (((joinRows db).filter (fun r =>
        truthyMatch operation r.1.operation && truthyMatch dsl r.1.dsl &&
        truthyMatch device r.1.device && truthyMatch status r.1.status)).mergeSort
        descByTime)).Pairwise (fun a b => b.1.timestamp ≤ a.1.timestamp)
    have hsorted := List.sorted_mergeSort descByTime_trans descByTime_total
      ((joinRows db).filter (fun r =>
        truthyMatch operation r.1.operation && truthyMatch dsl r.1.dsl &&
        truthyMatch device r.1.device && truthyMatch status r.1.status))
    exact List.Pairwise.imp (fun hab => by simpa [descByTime] using hab)
      (List.Pairwise.sublist (applyLimit_sublist _ _) hsorted)
  · intro hlim
    have hres : list_submissions db operation dsl device status limit
        = (((joinRows db).filter (fun r =>
            truthyMatch operation r.1.operation && truthyMatch dsl r.1.dsl &&
            truthyMatch device r.1.device && truthyMatch status r.1.status)).mergeSort
          descByTime).take limit.toNat := by
      unfold list_submissions applyLimit
      rw [if_neg (not_lt.mpr hlim)]
    rw [hres]
    have h2 := Int.ofNat_le.mpr (List.length_take_le limit.toNat
      (((joinRows db).filter (fun r =>
        truthyMatch operation r.1.operation && truthyMatch dsl r.1.dsl &&
        truthyMatch device r.1.device && truthyMatch status r.1.status)).mergeSort
        descByTime))
    rwa [Int.toNat_of_nonneg hlim] at h2
  · intro r hr
    exact (joinRows_username db r (List.mem_filter.mp (hmemfil r hr)).1).2

/-- Witness for the amended C7 at a concrete database and call. -/
theorem list_submissions_filters_order_limit_witness :
    (∀ r ∈ list_submissions sampleDB2 (some "add") none none none 10,
      (∀ f, (some "add" : Option String) = some f → f ≠ "" → r.1.operation = f) ∧
      (∀ f, (none : Option String) = some f → f ≠ "" → r.1.dsl = f) ∧
      (∀ f, (none : Option String) = some f → f ≠ "" → r.1.device = f) ∧
      (∀ f, (none : Option String) = some f → f ≠ "" → r.1.status = f)) ∧
    (list_submissions sampleDB2 (some "add") none none none 10).Pairwise
      (fun a b => b.1.timestamp ≤ a.1.timestamp) ∧
    ((0 : Int) ≤ 10 →
      ((list_submissions sampleDB2 (some "add") none none none 10).length : Int) ≤ 10) ∧
    (∀ r ∈ list_submissions sampleDB2 (some "add") none none none 10,
      ∃ u ∈ sampleDB2.users, u.id = r.1.user_id ∧ u.username = r.2) :=
  list_submissions_filters_order_limit sampleDB2 (some "add") none none none 10

/-- Counterexample to C7 as stated: with the status filter supplied as the
empty string and limit -1, the result keeps a row whose status is not the
filter value and its length exceeds the limit. -/
theorem list_submissions_counterexample :
    (list_submissions sampleDB2 none none none (some "") (-1)).length = 1 ∧
    ¬(((list_submissions sampleDB2 none none none (some "") (-1)).length : Int) ≤ -1) ∧
    ∃ r ∈ list_submissions sampleDB2 none none none (some "") (-1), r.1.status ≠ "" := by
  have hfil : (joinRows sampleDB2).filter (fun r =>
      truthyMatch none r.1.operation && truthyMatch none r.1.dsl &&
      truthyMatch none r.1.device && truthyMatch (some "") r.1.status)
      = [(sampleRow, "alice")] := by decide
  have hres : list_submissions sampleDB2 none none none (some "") (-1)
      = [(sampleRow, "alice")] := by
    unfold list_submissions applyLimit
    rw [hfil, List.mergeSort_singleton, if_pos (by decide)]
  rw [hres]
  exact ⟨rfl, by decide, ⟨(sampleRow, "alice"), by simp, by decide⟩⟩

/-- C8 amended: every pending-view query returns only pending rows,
sorted by ascending timestamp, each carrying the submitter's username;
whenever the limit is nonnegative the result has at most limit entries
(a negative limit imposes no bound, per SQL LIMIT semantics), and when
the pending rows fit within a nonnegative limit, every one of them is
returned. -/
theorem get_pending_submissions_spec (db : DB) (limit : Int) :
    (∀ r ∈ get_pending_submissions db limit, r.1.status = "pending") ∧
    (get_pending_submissions db limit).Pairwise
      (fun a b => a.1.timestamp ≤ b.1.timestamp) ∧
    (0 ≤ limit → ((get_pending_submissions db limit).length : Int) ≤ limit) ∧
    (∀ r ∈ get_pending_submissions db limit,
      ∃ u ∈ db.users, u.id = r.1.user_id ∧ u.username = r.2) ∧
    (0 ≤ limit →
      (((joinRows db).filter (fun r => r.1.status == "pending")).length : Int) ≤ limit →
      ∀ r ∈ (joinRows db).filter (fun r => r.1.status == "pending"),
        r ∈ get_pending_submissions db limit) := by
  have hmemfil : ∀ r ∈ get_pending_submissions db limit,
      r ∈ (joinRows db).filter (fun r => r.1.status == "pending") := by
    intro r hr
    have hr2 : r ∈ applyLimit limit
        (((joinRows db).filter (fun r => r.1.status == "pending")).mergeSort
          ascByTime) := hr
    exact (List.mergeSort_perm _ ascByTime).mem_iff.mp (applyLimit_subset _ _ hr2)
  refine ⟨?_, ?_, ?_, ?_, ?_⟩
  · intro r hr
    have h2 := (List.mem_filter.mp (hmemfil r hr)).2
    simpa using h2
  · show (applyLimit limit (((joinRows db).filter
        (fun r => r.1.status == "pending")).mergeSort ascByTime)).Pairwise
      (fun a b => a.1.timestamp ≤ b.1.timestamp)
    have hsorted := List.sorted_mergeSort ascByTime_trans ascByTime_total
      ((joinRows db).filter (fun r => r.1.status == "pending"))
    exact List.Pairwise.imp (fun hab => by simpa [ascByTime] using hab)
      (List.Pairwise.sublist (applyLimit_sublist _ _) hsorted)
  · intro hlim
    have hres : get_pending_submissions db limit
        = (((joinRows db).filter (fun r => r.1.status == "pending")).mergeSort
            ascByTime).take limit.toNat := by
      unfold get_pending_submissions applyLimit
      rw [if_neg (not_lt.mpr hlim)]
    rw [hres]
    have h2 := Int.ofNat_le.mpr (List.length_take_le limit.toNat
      (((joinRows db).filter (fun r => r.1.status == "pending")).mergeSort ascByTime))
    rwa [Int.toNat_of_nonneg hlim] at h2
  · intro r hr
    exact (joinRows_username db r (List.mem_filter.mp (hmemfil r hr)).1).2
  · intro hlim hlen r hr
    have hres : get_pending_submissions db limit
        = (((joinRows db).filter (fun r => r.1.status == "pending")).mergeSort
            ascByTime).take limit.toNat := by
      unfold get_pending_submissions applyLimit
      rw [if_neg (not_lt.mpr hlim)]
    rw [hres]
    have hlensort : (((joinRows db).filter (fun r => r.1.status == "pending")).mergeSort
        ascByTime).length
        = ((joinRows db).filter (fun r => r.1.status == "pending")).length :=
      (List.mergeSort_perm _ ascByTime).length_eq
    have hle : (((joinRows db).filter (fun r => r.1.status == "pending")).mergeSort
        ascByTime).length ≤ limit.toNat := by
      rw [hlensort]
      exact (Int.le_toNat hlim).mpr hlen
    rw [List.take_of_length_le hle]
    exact ((List.mergeSort_perm _ ascByTime).mem_iff).mpr hr

/-- Witness for the amended C8 at a concrete database and limit. -/
theorem get_pending_submissions_spec_witness :
    (∀ r ∈ get_pending_submissions sampleDB2 10, r.1.status = "pending") ∧
    (get_pending_submissions sampleDB2 10).Pairwise
      (fun a b => a.1.timestamp ≤ b.1.timestamp) ∧
    ((0 : Int) ≤ 10 → ((get_pending_submissions sampleDB2 10).length : Int) ≤ 10) ∧
    (∀ r ∈ get_pending_submissions sampleDB2 10,
      ∃ u ∈ sampleDB2.users, u.id = r.1.user_id ∧ u.username = r.2) ∧
    ((0 : Int) ≤ 10 →
      (((joinRows sampleDB2).filter (fun r => r.1.status == "pending")).length : Int) ≤ 10 →
      ∀ r ∈ (joinRows sampleDB2).filter (fun r => r.1.status == "pending"),
        r ∈ get_pending_submissions sampleDB2 10) :=
  get_pending_submissions_spec sampleDB2 10

/-- Counterexample to C8 as stated: with limit -1 the pending view
returns one row, exceeding the limit. -/
theorem get_pending_submissions_counterexample :
    (get_pending_submissions sampleDB2 (-1)).length = 1 ∧
    ¬(((get_pending_submissions sampleDB2 (-1)).length : Int) ≤ -1) := by
  have hfil : (joinRows sampleDB2).filter (fun r => r.1.status == "pending")
      = [(sampleRow, "alice")] := by decide
  have hres : get_pending_submissions sampleDB2 (-1) = [(sampleRow, "alice")] := by
    unfold get_pending_submissions applyLimit
    rw [hfil, List.mergeSort_singleton, if_pos (by decide)]
  rw [hres]
  exact ⟨rfl, by decide⟩
